import Mathlib

/-!
Verification of the conversational client in `src/components/ChatInterface.tsx`.

Strings are modelled as `List Char` (JS strings). JSON values produced by
`JSON.parse` are modelled by the inductive `Json`; numbers keep their raw
token characters, since no claim compares numbers numerically. Absent
properties (JS `undefined`) are modelled by `Option Json` with `none`.
-/

/-- Convert a Lean string literal to the `List Char` representation used throughout. -/
def s2l (s : String) : List Char := s.data

/-- JSON whitespace accepted by `JSON.parse`: space, tab, line feed, carriage return. -/
def jsonWs (c : Char) : Bool := c = ' ' || c = '\t' || c = '\n' || c = '\r'

/-- Drop leading JSON whitespace. -/
def skipWs : List Char → List Char
  | [] => []
  | c :: cs => if jsonWs c then skipWs cs else c :: cs

/-- Whitespace recognized by JS `String.prototype.trim` (the common subset). -/
def jsTrimWs (c : Char) : Bool :=
  c = ' ' || c = '\t' || c = '\n' || c = '\x0b' || c = '\x0c' || c = '\r' || c = '\xa0'

/-- Model of JS `String.prototype.trim`: strip leading and trailing whitespace. -/
def jsTrim (l : List Char) : List Char :=
  ((l.dropWhile jsTrimWs).reverse.dropWhile jsTrimWs).reverse

/-- JSON values as produced by `JSON.parse`. Numbers keep their raw token text. -/
inductive Json : Type where
  | null : Json
  | bool : Bool → Json
  | num : List Char → Json
  | str : List Char → Json
  | arr : List Json → Json
  | obj : List ((List Char) × Json) → Json

/-- Last-wins property lookup on the key/value list of a JSON object,
matching JS object construction where a later duplicate key overwrites. -/
def lookupLast (kvs : List ((List Char) × Json)) (k : List Char) : Option Json :=
  kvs.foldl (fun acc p => if p.1 = k then some p.2 else acc) none

/-- JS property access `v.k` for a non-`undefined` receiver: `none` is `undefined`.
Access on `null` throws in JS; callers match on `.null` before using this. -/
def jsGetL (v : Json) (k : List Char) : Option Json :=
  match v with
  | Json.obj kvs => lookupLast kvs k
  | _ => none

/-- True when a JSON number token denotes zero (all mantissa digits are `0`). -/
def numIsZero (raw : List Char) : Bool :=
  (raw.takeWhile (fun c => !(c = 'e' || c = 'E'))).all (fun c => !c.isDigit || c = '0')

/-- JS truthiness of a JSON value. -/
def jsTruthy : Json → Bool
  | Json.null => false
  | Json.bool b => b
  | Json.num raw => !(numIsZero raw)
  | Json.str s => !s.isEmpty
  | Json.arr _ => true
  | Json.obj _ => true

/-- JS truthiness of a possibly-`undefined` value. -/
def jsTruthyO : Option Json → Bool
  | none => false
  | some v => jsTruthy v

/-- JS `a || b` where `a` may be `undefined` and the default is a proper value. -/
def jsOr (a : Option Json) (b : Json) : Json :=
  match a with
  | some v => if jsTruthy v then v else b
  | none => b

/-- JS `a || b` where both sides may be `undefined`. -/
def jsOrO (a : Option Json) (b : Option Json) : Option Json :=
  match a with
  | some v => if jsTruthy v then some v else b
  | none => b

/-- Value of a hexadecimal digit. -/
def hexVal (c : Char) : Option Nat :=
  if '0' ≤ c ∧ c ≤ '9' then some (c.toNat - '0'.toNat)
  else if 'a' ≤ c ∧ c ≤ 'f' then some (c.toNat - 'a'.toNat + 10)
  else if 'A' ≤ c ∧ c ≤ 'F' then some (c.toNat - 'A'.toNat + 10)
  else none

/-- Decoding of a two-character string escape. -/
def escChar (e : Char) : Option Char :=
  if e = '\x22' then some '\x22'
  else if e = '\\' then some '\\'
  else if e = '/' then some '/'
  else if e = 'b' then some '\x08'
  else if e = 'f' then some '\x0c'
  else if e = 'n' then some '\n'
  else if e = 'r' then some '\r'
  else if e = 't' then some '\t'
  else none

/-- Parse the body of a JSON string after the opening quote; returns the decoded
characters and the remainder after the closing quote. Fuel-bounded. -/
def parseStrBody : Nat → List Char → Option ((List Char) × List Char)
  | 0, _ => none
  | Nat.succ f, s =>
    match s with
    | [] => none
    | '\x22' :: r => some ([], r)
    | '\\' :: 'u' :: h1 :: h2 :: h3 :: h4 :: r =>
      (match hexVal h1, hexVal h2, hexVal h3, hexVal h4 with
       | some a, some b, some c, some d =>
         (parseStrBody f r).map
           (fun p => (Char.ofNat (((a * 16 + b) * 16 + c) * 16 + d) :: p.1, p.2))
       | _, _, _, _ => none)
    | '\\' :: e :: r =>
      (match escChar e with
       | some c => (parseStrBody f r).map (fun p => (c :: p.1, p.2))
       | none => none)
    | c :: r =>
      if c.toNat < 32 then none
      else (parseStrBody f r).map (fun p => (c :: p.1, p.2))

/-- Span of leading decimal digits. -/
def digitsSpan (s : List Char) : (List Char) × List Char :=
  (s.takeWhile Char.isDigit, s.dropWhile Char.isDigit)

/-- Parse the exponent part of a JSON number token (if present). -/
def parseExpPart (acc : List Char) (s : List Char) : Option ((List Char) × List Char) :=
  match s with
  | c :: r =>
    if c = 'e' ∨ c = 'E' then
      (match r with
       | '+' :: r2 =>
         (match digitsSpan r2 with
          | ([], _) => none
          | (ds, rest) => some (acc ++ c :: '+' :: ds, rest))
       | '-' :: r2 =>
         (match digitsSpan r2 with
          | ([], _) => none
          | (ds, rest) => some (acc ++ c :: '-' :: ds, rest))
       | _ =>
         (match digitsSpan r with
          | ([], _) => none
          | (ds, rest) => some (acc ++ c :: ds, rest)))
    else some (acc, s)
  | [] => some (acc, [])

/-- Parse the fraction and exponent parts of a JSON number token. -/
def parseFracPart (acc : List Char) (s : List Char) : Option ((List Char) × List Char) :=
  match s with
  | '.' :: r =>
    (match digitsSpan r with
     | ([], _) => none
     | (ds, rest) => parseExpPart (acc ++ '.' :: ds) rest)
  | _ => parseExpPart acc s

/-- Parse a JSON number token starting at the current position; returns the raw
token characters and the remainder. -/
def parseNum (s : List Char) : Option ((List Char) × List Char) :=
  match s with
  | '-' :: s1 =>
    (match s1 with
     | '0' :: r =>
       (match r with
        | d :: _ => if d.isDigit then none else parseFracPart ['-', '0'] r
        | [] => parseFracPart ['-', '0'] r)
     | d :: r =>
       if d.isDigit then
         (match digitsSpan (d :: r) with
          | (ds, rest) => parseFracPart ('-' :: ds) rest)
       else none
     | [] => none)
  | '0' :: r =>
    (match r with
     | d :: _ => if d.isDigit then none else parseFracPart ['0'] r
     | [] => parseFracPart ['0'] r)
  | d :: r =>
    if d.isDigit then
      (match digitsSpan (d :: r) with
       | (ds, rest) => parseFracPart ds rest)
    else none
  | [] => none

mutual

/-- Parse one JSON value at the current (whitespace-skipped) position. Fuel-bounded. -/
def parseVal : Nat → List Char → Option (Json × List Char)
  | 0, _ => none
  | Nat.succ f, s =>
    match s with
    | 'n' :: 'u' :: 'l' :: 'l' :: r => some (Json.null, r)
    | 't' :: 'r' :: 'u' :: 'e' :: r => some (Json.bool true, r)
    | 'f' :: 'a' :: 'l' :: 's' :: 'e' :: r => some (Json.bool false, r)
    | '\x22' :: r => (parseStrBody (Nat.succ r.length) r).map (fun p => (Json.str p.1, p.2))
    | '[' :: r =>
      (match skipWs r with
       | ']' :: r2 => some (Json.arr [], r2)
       | r1 => parseElems f r1 [])
    | '\x7b' :: r =>
      (match skipWs r with
       | '\x7d' :: r2 => some (Json.obj [], r2)
       | r1 => parseMems f r1 [])
    | _ => (parseNum s).map (fun p => (Json.num p.1, p.2))

/-- Parse the elements of a JSON array after the opening bracket. Fuel-bounded. -/
def parseElems : Nat → List Char → List Json → Option (Json × List Char)
  | 0, _, _ => none
  | Nat.succ f, s, acc =>
    match parseVal f s with
    | none => none
    | some (v, r) =>
      match skipWs r with
      | ',' :: r2 => parseElems f (skipWs r2) (acc ++ [v])
      | ']' :: r2 => some (Json.arr (acc ++ [v]), r2)
      | _ => none

/-- Parse the members of a JSON object after the opening brace. Fuel-bounded. -/
def parseMems : Nat → List Char → List ((List Char) × Json) →
    Option (Json × List Char)
  | 0, _, _ => none
  | Nat.succ f, s, acc =>
    match s with
    | '\x22' :: r =>
      (match parseStrBody (Nat.succ r.length) r with
       | none => none
       | some (k, r1) =>
         match skipWs r1 with
         | ':' :: r2 =>
           (match parseVal f (skipWs r2) with
            | none => none
            | some (v, r3) =>
              match skipWs r3 with
              | ',' :: r4 => parseMems f (skipWs r4) (acc ++ [(k, v)])
              | '\x7d' :: r4 => some (Json.obj (acc ++ [(k, v)]), r4)
              | _ => none)
         | _ => none)
    | _ => none

end

/-- Model of `JSON.parse` on a whole line: `none` means the parse throws. -/
def parseJson (s : List Char) : Option Json :=
  match parseVal (2 * s.length + 8) (skipWs s) with
  | some (v, r) => if (skipWs r).isEmpty then some v else none
  | none => none

/-! ## Application data model (from `ChatInterface.tsx`) -/

/-- Sender of a chat message. -/
inductive Sender : Type where
  | user : Sender
  | agent : Sender

/-- Normalized product shape built in the synchronous path; each field may be
`undefined` when absent from the backend payload. -/
structure Product : Type where
  product_name : Option Json
  description : Option Json
  link_to_product : Option Json
  price : Option Json
  image_url : Option Json

/-- A chat message. `id` and `timestamp` (wall-clock values) are omitted from the
model; `none` in an optional field is JS `undefined`. -/
structure Message : Type where
  content : Option Json
  sender : Sender
  type : Option Json
  buttons : Option Json
  options : Option Json
  products : Option (List Product)
  total_products : Option Json

/-- One entry of the stream-event log (`StreamingData` in the source),
timestamp omitted. -/
structure StreamingData : Type where
  type : Option Json
  data : Option Json

/-- A toast notification, auto-dismiss timing omitted. -/
structure Toast : Type where
  title : List Char
  description : List Char
  destructive : Bool

/-- The component state of `ChatInterface`. -/
structure AppState : Type where
  messages : List Message
  inputMessage : List Char
  isLoading : Bool
  isInputDisabled : Bool
  sessionId : Nat
  toasts : List Toast
  streamingData : List StreamingData
  isStreaming : Bool
  userQuery : List Char

/-- Initial component state with the startup-drawn session id. -/
def initialState (sid : Nat) : AppState :=
  { messages := [], inputMessage := [], isLoading := false, isInputDisabled := false,
    sessionId := sid, toasts := [], streamingData := [], isStreaming := false,
    userQuery := [] }

/-- A user chat message carrying the given text. -/
def mkUserMsg (text : List Char) : Message :=
  { content := some (Json.str text), sender := Sender.user, type := none,
    buttons := none, options := none, products := none, total_products := none }

/-- Fallback content used when the synchronous `response` field is falsy. -/
def fallbackText : List Char := s2l "I\x27m not sure how to respond to that."

/-- The error toast added by `handleSubmit` / `handleButtonClick` catch blocks. -/
def agentErrToast : Toast :=
  { title := s2l "Error",
    description := s2l "Failed to get a response from the agent. Please try again.",
    destructive := true }

/-- The error toast added by the `handleStreamingResponse` catch block. -/
def streamErrToast : Toast :=
  { title := s2l "Error",
    description := s2l "Failed to process streaming response. Please try again.",
    destructive := true }

/-- Toast shown by `refreshSession`. -/
def refreshToast (newId : Nat) : Toast :=
  { title := s2l "Session Refreshed",
    description := s2l "New session started with ID: " ++ Nat.toDigits 10 newId,
    destructive := false }

/-- Normalization of one element of `data.products` (the arrow function inside
`data.products?.map`); property access on `null` throws. -/
def normP (p : Json) : Except Unit Product :=
  match p with
  | Json.null => Except.error ()
  | _ =>
    Except.ok
      { product_name := jsGetL p (s2l "product_name"),
        description := jsGetL p (s2l "description"),
        link_to_product := jsGetL p (s2l "link_to_product"),
        image_url := jsOrO (jsGetL p (s2l "Image_URL")) (jsGetL p (s2l "image_url")),
        price := jsGetL p (s2l "price") }

/-- `data.products?.map(...) || []`: `undefined`/`null` products give `[]`;
a non-array value has no `.map` method and throws. -/
def mkProducts : Option Json → Except Unit (List Product)
  | none => Except.ok []
  | some Json.null => Except.ok []
  | some (Json.arr xs) => xs.mapM normP
  | some _ => Except.error ()

/-- `data.metadata?.total_products || 0`. -/
def mkTotal (md : Option Json) : Json :=
  match md with
  | none => Json.num ['0']
  | some Json.null => Json.num ['0']
  | some m => jsOr (jsGetL m (s2l "total_products")) (Json.num ['0'])

/-- Construction of the agent `Message` from a synchronous JSON body `data`
(the object literal in `handleSubmit`); `error` means a JS exception was thrown
while building it (caught by the surrounding catch). -/
def mkAgentMessage (data : Json) : Except Unit Message :=
  match data with
  | Json.null => Except.error ()
  | _ =>
    match mkProducts (jsGetL data (s2l "products")) with
    | Except.error e => Except.error e
    | Except.ok prods =>
      Except.ok
        { content := some (jsOr (jsGetL data (s2l "response")) (Json.str fallbackText)),
          sender := Sender.agent,
          type := some (jsOr (jsGetL data (s2l "type")) (Json.str (s2l "text"))),
          buttons := some (jsOr (jsGetL data (s2l "buttons")) (Json.arr [])),
          options := some (jsOr (jsGetL data (s2l "options")) (Json.arr [])),
          products := some prods,
          total_products := some (mkTotal (jsGetL data (s2l "metadata"))) }

/-- `agentMessage.type === 'interactive'`. -/
def isInteractive (m : Message) : Bool :=
  match m.type with
  | some (Json.str s) => decide (s = s2l "interactive")
  | _ => false

/-! ## Line framer and stream classifier (from `handleStreamingResponse`) -/

/-- Model of JS `buffer.split('\n')`: always returns a non-empty list of
newline-free pieces. -/
def splitNl : List Char → List (List Char)
  | [] => [[]]
  | c :: cs =>
    if c = '\n' then [] :: splitNl cs
    else
      match splitNl cs with
      | [] => [[c]]
      | p :: ps => (c :: p) :: ps

/-- Last element of a list of lines, defaulting to the empty line
(JS `lines.pop() || ''`). -/
def lastD : List (List Char) → List Char
  | [] => []
  | [a] => a
  | _ :: b :: l => lastD (b :: l)

/-- Concatenation of a chunk sequence. -/
def concatAll : List (List Char) → List Char
  | [] => []
  | c :: cs => c ++ concatAll cs

/-- Effect of one framed line in the streaming loop body. -/
inductive LineAct : Type where
  | skip : LineAct
  | suppress : LineAct
  | emit : Option Json → Option Json → LineAct
  | capture : Option Json → LineAct

/-- Classification of one successfully parsed, non-`null` stream record:
`follow_up` captures its `data`; `final_response` is recognized but does
nothing; anything else is emitted to the stream-event log. -/
def classifyVal (v : Json) : LineAct :=
  match jsGetL v (s2l "type") with
  | some (Json.str t) =>
    if t = s2l "follow_up" then LineAct.capture (jsGetL v (s2l "data"))
    else if t = s2l "final_response" then LineAct.suppress
    else LineAct.emit (some (Json.str t)) (jsGetL v (s2l "data"))
  | ty => LineAct.emit ty (jsGetL v (s2l "data"))

/-- Classification of one framed line: blank lines are skipped; a JSON parse
failure (or a `null` value, whose property access throws) is caught and skipped;
otherwise the parsed record is classified by `classifyVal`. -/
def classifyLine (l : List Char) : LineAct :=
  if (jsTrim l).isEmpty then LineAct.skip
  else
    match parseJson l with
    | none => LineAct.skip
    | some Json.null => LineAct.skip
    | some v => classifyVal v

/-- Loop body of the streaming reader for one complete line; the second
component of the state is the `finalMessage` variable. -/
def lineStep (s : AppState × Option Json) (l : List Char) : AppState × Option Json :=
  match classifyLine l with
  | LineAct.skip => s
  | LineAct.suppress => s
  | LineAct.emit ty d =>
    ({ s.1 with streamingData := s.1.streamingData ++ [{ type := ty, data := d }] }, s.2)
  | LineAct.capture d => (s.1, d)

/-- One iteration of the read loop: append the chunk to the pending buffer,
split on newline, keep the last piece as the new buffer, process the rest. -/
def chunkStep (s : (AppState × Option Json) × List Char) (chunk : List Char) :
    (AppState × Option Json) × List Char :=
  (List.foldl lineStep s.1 (splitNl (s.2 ++ chunk)).dropLast,
   lastD (splitNl (s.2 ++ chunk)))

/-- The synthetic `query` stream event injected before reading. -/
def queryEvent (text : List Char) : StreamingData :=
  { type := some (Json.str (s2l "query")), data := some (Json.str text) }

/-- State updates performed by `handleStreamingResponse` before the read loop. -/
def streamStart (st : AppState) (text : List Char) : AppState :=
  { st with isStreaming := true, userQuery := text,
            streamingData := st.streamingData ++ [queryEvent text] }

/-- The whole read loop over the delivered chunks, starting from an empty buffer
and `finalMessage = ''`. -/
def streamLoop (st : AppState) (text : List Char) (chunks : List (List Char)) :
    (AppState × Option Json) × List Char :=
  List.foldl chunkStep ((streamStart st text, some (Json.str [])), []) chunks

/-- The agent message appended at end of stream. -/
def mkFinalMsg (fm : Option Json) : Message :=
  { content := fm, sender := Sender.agent, type := some (Json.str (s2l "text")),
    buttons := none, options := none, products := none, total_products := none }

/-- End-of-stream processing: append the captured final message when truthy
(`recommendedProducts` is never assigned and stays empty), then the `finally`
block resets the loading and streaming flags. -/
def endOfStream (p : AppState × Option Json) : AppState :=
  let recommendedProducts : List Product := []
  let a :=
    if jsTruthyO p.2 && (recommendedProducts.length == 0) then
      { p.1 with messages := p.1.messages ++ [mkFinalMsg p.2] }
    else p.1
  { a with isLoading := false, isStreaming := false }

/-- `handleStreamingResponse`: when `aborted` is true a read threw after the
given chunks were consumed; the catch adds a toast and rethrows, and the
`finally` still resets the flags. -/
def handleStreamingResponse (st : AppState) (text : List Char)
    (chunks : List (List Char)) (aborted : Bool) : AppState :=
  let p := streamLoop st text chunks
  if aborted then
    let a := { p.1.1 with toasts := p.1.1.toasts ++ [streamErrToast] }
    { a with isLoading := false, isStreaming := false }
  else endOfStream p.1

/-! ## Request dispatch (from `handleSubmit` / `handleButtonClick` / `refreshSession`) -/

/-- Abstract outcome of one `fetch` of the chat endpoint. `httpError` covers a
thrown fetch as well as a non-ok status (both reach the catch block);
`streamAborted` is a stream that throws mid-read after the listed chunks. -/
inductive Outcome : Type where
  | httpError : Outcome
  | syncJson : Json → Outcome
  | streamOk : List (List Char) → Outcome
  | streamAborted : List (List Char) → Outcome

/-- Shared response handling of `handleSubmit` and `handleButtonClick`
(the source duplicates this block verbatim). -/
def resolveOutcome (st : AppState) (text : List Char) (o : Outcome) : AppState :=
  match o with
  | Outcome.httpError =>
    { st with isStreaming := false, isLoading := false,
              toasts := st.toasts ++ [agentErrToast] }
  | Outcome.syncJson d =>
    (match mkAgentMessage d with
     | Except.ok m =>
       { st with messages := st.messages ++ [m],
                 isInputDisabled := isInteractive m, isLoading := false }
     | Except.error _ =>
       { st with isStreaming := false, isLoading := false,
                 toasts := st.toasts ++ [agentErrToast] })
  | Outcome.streamOk chunks => handleStreamingResponse st text chunks false
  | Outcome.streamAborted chunks =>
    let a := handleStreamingResponse st text chunks true
    { a with isStreaming := false, isLoading := false,
             toasts := a.toasts ++ [agentErrToast] }

/-- State updates of `handleSubmit` before the request: append the user message,
clear the input box, raise the loading flag. -/
def submitDispatch (st : AppState) : AppState :=
  { st with messages := st.messages ++ [mkUserMsg st.inputMessage],
            inputMessage := [], isLoading := true }

/-- `handleSubmit` with the request outcome supplied by the environment;
whitespace-only input returns without any effect. -/
def handleSubmit (st : AppState) (o : Outcome) : AppState :=
  if (jsTrim st.inputMessage).isEmpty then st
  else resolveOutcome (submitDispatch st) st.inputMessage o

/-- State updates of `handleButtonClick` before the request: append the label as
a user message, raise loading, and unlock the input immediately. -/
def buttonDispatch (st : AppState) (label : List Char) : AppState :=
  { st with messages := st.messages ++ [mkUserMsg label],
            isLoading := true, isInputDisabled := false }

/-- `handleButtonClick` with the request outcome supplied by the environment. -/
def handleButtonClick (st : AppState) (label : List Char) (o : Outcome) : AppState :=
  resolveOutcome (buttonDispatch st label) label o

/-- `refreshSession` with the freshly drawn session id supplied by the
environment (the source draws it from `Math.random`). -/
def refreshSession (st : AppState) (newId : Nat) : AppState :=
  { st with sessionId := newId, messages := [], streamingData := [],
            userQuery := [], isInputDisabled := false, isStreaming := false,
            toasts := st.toasts ++ [refreshToast newId] }

/-- Typing into the input box (the `onChange` handler). -/
def setInputMessage (st : AppState) (text : List Char) : AppState :=
  { st with inputMessage := text }

/-- The complete lines framed from a chunk sequence over the whole stream
(the trailing buffer after the last newline is never processed). -/
def linesOf (chunks : List (List Char)) : List (List Char) :=
  (splitNl (concatAll chunks)).dropLast

/-- Accumulate the payload of the most recent `follow_up` line. -/
def capStep (acc : Option (Option Json)) (l : List Char) : Option (Option Json) :=
  match classifyLine l with
  | LineAct.capture d => some d
  | _ => acc

/-- The `data` payload of the last `follow_up` line, when any line captures. -/
def lastCapture (lines : List (List Char)) : Option (Option Json) :=
  List.foldl capStep none lines

/-- Prepend a leftover buffer to the first piece of a split. -/
def glueHead (x : List Char) : List (List Char) → List (List Char)
  | [] => [x]
  | p :: ps => (x ++ p) :: ps

/-! ## Framing lemmas -/

theorem splitNl_ne_nil (s : List Char) : splitNl s ≠ [] := by
  induction s with
  | nil => simp [splitNl]
  | cons c cs ih =>
    simp only [splitNl]
    split
    · simp
    · cases h : splitNl cs with
      | nil => simp
      | cons p ps => simp

theorem splitNl_no_nl {l : List Char} (h : '\n' ∉ l) : splitNl l = [l] := by
  induction l with
  | nil => rfl
  | cons c cs ih =>
    have hc : ¬ c = '\n' := by
      intro e
      exact h (by simp [e])
    have hcs : '\n' ∉ cs := fun m => h (List.mem_cons_of_mem _ m)
    simp [splitNl, hc, ih hcs]

theorem lastD_cons_of_ne_nil (a : List Char) {l : List (List Char)} (h : l ≠ []) :
    lastD (a :: l) = lastD l := by
  cases l with
  | nil => exact absurd rfl h
  | cons b t => rfl

theorem lastD_append_of_ne_nil (xs : List (List Char)) {ys : List (List Char)}
    (h : ys ≠ []) : lastD (xs ++ ys) = lastD ys := by
  induction xs with
  | nil => rfl
  | cons x xs ih =>
    have hne : xs ++ ys ≠ [] := by
      intro e
      rcases List.append_eq_nil.mp e with ⟨_, e2⟩
      exact h e2
    rw [List.cons_append, lastD_cons_of_ne_nil _ hne, ih]

theorem dropLast_append_of_ne_nil (xs : List (List Char)) {ys : List (List Char)}
    (h : ys ≠ []) : (xs ++ ys).dropLast = xs ++ ys.dropLast := by
  induction xs with
  | nil => rfl
  | cons x xs ih =>
    cases e : xs ++ ys with
    | nil =>
      rcases List.append_eq_nil.mp e with ⟨_, e2⟩
      exact absurd e2 h
    | cons b t =>
      rw [List.cons_append, e, List.dropLast_cons₂, ← e, ih, List.cons_append]

theorem nl_not_mem_lastD_splitNl (s : List Char) : '\n' ∉ lastD (splitNl s) := by
  induction s with
  | nil => simp [splitNl, lastD]
  | cons c cs ih =>
    by_cases hc : c = '\n'
    · rw [show splitNl (c :: cs) = [] :: splitNl cs by simp [splitNl, hc],
        lastD_cons_of_ne_nil _ (splitNl_ne_nil cs)]
      exact ih
    · cases h : splitNl cs with
      | nil => exact absurd h (splitNl_ne_nil cs)
      | cons p ps =>
        rw [show splitNl (c :: cs) = (c :: p) :: ps by simp [splitNl, hc, h]]
        cases ps with
        | nil =>
          rw [h] at ih
          intro m
          rcases List.mem_cons.mp (by simpa [lastD] using m) with e | m2
          · exact hc e.symm
          · exact ih (by simpa [lastD] using m2)
        | cons q t =>
          rw [h] at ih
          intro m
          exact ih (by simpa [lastD] using m)

theorem glueHead_ne_nil (x : List Char) (l : List (List Char)) : glueHead x l ≠ [] := by
  cases l with
  | nil => simp [glueHead]
  | cons p ps => simp [glueHead]

theorem splitNl_cons_nl (cs : List Char) : splitNl ('\n' :: cs) = [] :: splitNl cs := by
  simp [splitNl]

theorem splitNl_cons_other {c : Char} (hc : ¬ c = '\n') {cs p : List Char}
    {ps : List (List Char)} (h : splitNl cs = p :: ps) :
    splitNl (c :: cs) = (c :: p) :: ps := by
  simp [splitNl, hc, h]

theorem dropLast_cons_of_ne_nil (a : List Char) {l : List (List Char)} (h : l ≠ []) :
    (a :: l).dropLast = a :: l.dropLast := dropLast_append_of_ne_nil [a] h

theorem splitNl_append (a b : List Char) :
    splitNl (a ++ b) =
      (splitNl a).dropLast ++ glueHead (lastD (splitNl a)) (splitNl b) := by
  induction a with
  | nil =>
    cases h : splitNl b with
    | nil => exact absurd h (splitNl_ne_nil b)
    | cons p ps => simp [splitNl, lastD, glueHead, h]
  | cons c cs ih =>
    by_cases hc : c = '\n'
    · subst hc
      rw [List.cons_append, splitNl_cons_nl, splitNl_cons_nl, ih,
        lastD_cons_of_ne_nil _ (splitNl_ne_nil cs),
        dropLast_cons_of_ne_nil _ (splitNl_ne_nil cs), List.cons_append]
    · cases hS : splitNl cs with
      | nil => exact absurd hS (splitNl_ne_nil cs)
      | cons p ps =>
        cases hT : splitNl b with
        | nil => exact absurd hT (splitNl_ne_nil b)
        | cons q qs =>
          have hcsb := ih
          rw [hS, hT] at hcsb
          cases ps with
          | nil =>
            simp only [List.dropLast_single, lastD, glueHead, List.nil_append] at hcsb
            rw [List.cons_append, splitNl_cons_other hc hcsb,
              splitNl_cons_other hc hS]
            simp [lastD, glueHead]
          | cons r t =>
            simp only [List.dropLast_cons₂, lastD, glueHead, List.cons_append] at hcsb
            rw [List.cons_append, splitNl_cons_other hc hcsb,
              splitNl_cons_other hc hS]
            simp [lastD, glueHead, List.dropLast_cons₂]

theorem foldl_chunkStep_eq (chunks : List (List Char)) :
    ∀ (s : AppState × Option Json) (buf : List Char), '\n' ∉ buf →
      List.foldl chunkStep (s, buf) chunks =
        (List.foldl lineStep s (splitNl (buf ++ concatAll chunks)).dropLast,
         lastD (splitNl (buf ++ concatAll chunks))) := by
  induction chunks with
  | nil =>
    intro s buf h
    simp [concatAll, splitNl_no_nl h, lastD]
  | cons c cs ih =>
    intro s buf h
    rw [List.foldl_cons,
      show chunkStep (s, buf) c =
        (List.foldl lineStep s (splitNl (buf ++ c)).dropLast,
         lastD (splitNl (buf ++ c))) from rfl,
      ih _ _ (nl_not_mem_lastD_splitNl (buf ++ c))]
    have hQ : splitNl (lastD (splitNl (buf ++ c)) ++ concatAll cs) =
        glueHead (lastD (splitNl (buf ++ c))) (splitNl (concatAll cs)) := by
      rw [splitNl_append, splitNl_no_nl (nl_not_mem_lastD_splitNl (buf ++ c))]
      simp [lastD]
    have hR : splitNl (buf ++ concatAll (c :: cs)) =
        (splitNl (buf ++ c)).dropLast ++
          splitNl (lastD (splitNl (buf ++ c)) ++ concatAll cs) := by
      rw [hQ, show concatAll (c :: cs) = c ++ concatAll cs from rfl,
        ← List.append_assoc, splitNl_append (buf ++ c) (concatAll cs)]
    rw [hR, dropLast_append_of_ne_nil _ (splitNl_ne_nil _),
      List.foldl_append, lastD_append_of_ne_nil _ (splitNl_ne_nil _)]

theorem streamLoop_eq (st : AppState) (text : List Char) (chunks : List (List Char)) :
    streamLoop st text chunks =
      (List.foldl lineStep (streamStart st text, some (Json.str [])) (linesOf chunks),
       lastD (splitNl (concatAll chunks))) := by
  unfold streamLoop linesOf
  rw [foldl_chunkStep_eq chunks _ [] (by simp)]
  simp

theorem classifyVal_emit_ne_follow_up {v : Json} {ty d : Option Json}
    (h : classifyVal v = LineAct.emit ty d) :
    ty ≠ some (Json.str (s2l "follow_up")) := by
  intro e
  subst e
  unfold classifyVal at h
  rcases hg : jsGetL v (s2l "type") with _ | w
  · rw [hg] at h
    simp at h
  · rcases w with _ | b | raw | t | xs | kvs
    · rw [hg] at h; simp at h
    · rw [hg] at h; simp at h
    · rw [hg] at h; simp at h
    · rw [hg] at h
      by_cases hfu : t = s2l "follow_up"
      · simp [hfu] at h
      · by_cases hfr : t = s2l "final_response"
        · have h2 : (if t = s2l "follow_up" then LineAct.capture (jsGetL v (s2l "data"))
              else if t = s2l "final_response" then LineAct.suppress
              else LineAct.emit (some (Json.str t)) (jsGetL v (s2l "data"))) =
              LineAct.emit (some (Json.str (s2l "follow_up"))) d := h
          rw [if_neg hfu, if_pos hfr] at h2
          simp at h2
        · simp [hfu, hfr] at h
    · rw [hg] at h; simp at h
    · rw [hg] at h; simp at h

theorem emit_ty_ne_follow_up {l : List Char} {ty d : Option Json}
    (h : classifyLine l = LineAct.emit ty d) :
    ty ≠ some (Json.str (s2l "follow_up")) := by
  unfold classifyLine at h
  split at h
  · simp at h
  · split at h
    · simp at h
    · simp at h
    · exact classifyVal_emit_ne_follow_up h

theorem lineFold_app (lines : List (List Char)) :
    ∀ s : AppState × Option Json,
      ∃ evs : List StreamingData,
        (List.foldl lineStep s lines).1 =
          { s.1 with streamingData := s.1.streamingData ++ evs } ∧
        ∀ e ∈ evs, e.type ≠ some (Json.str (s2l "follow_up")) := by
  induction lines with
  | nil =>
    intro s
    exact ⟨[], by simp, by simp⟩
  | cons l ls ih =>
    intro s
    rw [List.foldl_cons]
    cases hcl : classifyLine l with
    | skip =>
      simpa [lineStep, hcl] using ih s
    | suppress =>
      simpa [lineStep, hcl] using ih s
    | capture d =>
      obtain ⟨evs, he, hf⟩ := ih (s.1, d)
      exact ⟨evs, by simpa [lineStep, hcl] using he, hf⟩
    | emit ty d =>
      obtain ⟨evs, he, hf⟩ :=
        ih ({ s.1 with streamingData := s.1.streamingData ++ [{ type := ty, data := d }] }, s.2)
      refine ⟨{ type := ty, data := d } :: evs, ?_, ?_⟩
      · rw [show lineStep s l =
            ({ s.1 with streamingData := s.1.streamingData ++ [{ type := ty, data := d }] }, s.2)
            from by simp [lineStep, hcl], he]
        simp
      · intro e me
        rcases List.mem_cons.mp me with e1 | e2
        · rw [e1]
          exact emit_ty_ne_follow_up hcl
        · exact hf e e2

theorem capFold_init (ls : List (List Char)) :
    ∀ a : Option (Option Json),
      List.foldl capStep a ls =
        match List.foldl capStep none ls with
        | some e => some e
        | none => a := by
  induction ls with
  | nil => intro a; simp
  | cons l ls ih =>
    intro a
    rw [List.foldl_cons, List.foldl_cons]
    cases hcl : classifyLine l with
    | capture d =>
      rw [show capStep a l = some d from by simp [capStep, hcl],
        show capStep none l = some d from by simp [capStep, hcl]]
      rw [ih (some d)]
      cases List.foldl capStep none ls with
      | none => simp
      | some e => simp
    | skip =>
      rw [show capStep a l = a from by simp [capStep, hcl],
        show capStep none l = none from by simp [capStep, hcl]]
      exact ih a
    | suppress =>
      rw [show capStep a l = a from by simp [capStep, hcl],
        show capStep none l = none from by simp [capStep, hcl]]
      exact ih a
    | emit ty d =>
      rw [show capStep a l = a from by simp [capStep, hcl],
        show capStep none l = none from by simp [capStep, hcl]]
      exact ih a

theorem lineFold_snd (lines : List (List Char)) :
    ∀ (a : AppState) (fm : Option Json),
      (List.foldl lineStep (a, fm) lines).2 =
        match lastCapture lines with
        | some d => d
        | none => fm := by
  induction lines with
  | nil => intro a fm; simp [lastCapture]
  | cons l ls ih =>
    intro a fm
    rw [List.foldl_cons]
    unfold lastCapture
    rw [List.foldl_cons]
    cases hcl : classifyLine l with
    | skip =>
      rw [show lineStep (a, fm) l = (a, fm) from by simp [lineStep, hcl],
        show capStep none l = none from by simp [capStep, hcl]]
      exact ih a fm
    | suppress =>
      rw [show lineStep (a, fm) l = (a, fm) from by simp [lineStep, hcl],
        show capStep none l = none from by simp [capStep, hcl]]
      exact ih a fm
    | emit ty d =>
      rw [show lineStep (a, fm) l =
          ({ a with streamingData := a.streamingData ++ [{ type := ty, data := d }] }, fm)
          from by simp [lineStep, hcl],
        show capStep none l = none from by simp [capStep, hcl]]
      exact ih _ fm
    | capture d =>
      rw [show lineStep (a, fm) l = (a, d) from by simp [lineStep, hcl],
        show capStep none l = some d from by simp [capStep, hcl],
        capFold_init ls (some d), ih a d]
      unfold lastCapture
      cases List.foldl capStep none ls with
      | none => simp
      | some e => simp

/-! ## Claim theorems -/

theorem concatAll_append (xs ys : List (List Char)) :
    concatAll (xs ++ ys) = concatAll xs ++ concatAll ys := by
  induction xs with
  | nil => rfl
  | cons c cs ih => simp [concatAll, ih]

/-- C1: Chunking-invariance of the line framer: delivering a streaming payload
in any sequence of chunks produces exactly the same final state (in particular
the same classified stream events, in the same order) as delivering the
concatenation as one single chunk. -/
theorem chunking_invariance (st : AppState) (text : List Char)
    (chunks : List (List Char)) (aborted : Bool) :
    handleStreamingResponse st text chunks aborted =
      handleStreamingResponse st text [concatAll chunks] aborted := by
  unfold handleStreamingResponse
  rw [streamLoop_eq, streamLoop_eq]
  have h1 : concatAll [concatAll chunks] = concatAll chunks := by
    simp [concatAll]
  unfold linesOf
  rw [h1]

/-- C3 (counterexample): `refreshSession` from a state with an in-flight
request leaves the loading flag raised, contradicting the claim that refresh
sets the loading flag false. -/
theorem refresh_keeps_loading_counterexample :
    (refreshSession { initialState 1 with isLoading := true } 2).isLoading = true := rfl

/-- C3 (amended): `refreshSession` empties the message log and the stream-event
log, clears the streaming and input-lock flags, clears the saved user query, and
installs the freshly drawn session id — but it leaves the loading flag exactly
as it was. -/
theorem refresh_clears_state (st : AppState) (newId : Nat) :
    (refreshSession st newId).messages = [] ∧
    (refreshSession st newId).streamingData = [] ∧
    (refreshSession st newId).isStreaming = false ∧
    (refreshSession st newId).isInputDisabled = false ∧
    (refreshSession st newId).userQuery = [] ∧
    (refreshSession st newId).sessionId = newId ∧
    (refreshSession st newId).isLoading = st.isLoading :=
  ⟨rfl, rfl, rfl, rfl, rfl, rfl, rfl⟩

/-- C4 (counterexample): a stream consisting of one record without a trailing
newline produces no classified event at all (only the synthetic query event)
and no message — the trailing buffer is discarded, not attempted as a record. -/
theorem trailing_buffer_discarded_counterexample :
    (handleStreamingResponse (initialState 1) (s2l "hi")
        [s2l "\x7b\x22type\x22:\x22intent\x22,\x22data\x22:\x22x\x22\x7d"] false).streamingData
      = [queryEvent (s2l "hi")] ∧
    (handleStreamingResponse (initialState 1) (s2l "hi")
        [s2l "\x7b\x22type\x22:\x22intent\x22,\x22data\x22:\x22x\x22\x7d"] false).messages = [] :=
  ⟨rfl, rfl⟩

/-- C4 (amended): text arriving after the last newline of the stream is
discarded when the input ends, never flushed nor attempted as a record:
appending any newline-free trailing chunk to a stream leaves the resulting
state unchanged. -/
theorem trailing_buffer_discarded (st : AppState) (text : List Char)
    (chunks : List (List Char)) (extra : List Char) (h : '\n' ∉ extra) :
    handleStreamingResponse st text (chunks ++ [extra]) false =
      handleStreamingResponse st text chunks false := by
  unfold handleStreamingResponse
  rw [streamLoop_eq, streamLoop_eq]
  have h1 : linesOf (chunks ++ [extra]) = linesOf chunks := by
    unfold linesOf
    rw [concatAll_append,
      show concatAll [extra] = extra from by simp [concatAll],
      splitNl_append, splitNl_no_nl h]
    simp [glueHead, List.dropLast_concat]
  rw [h1]

/-- C4 witness. -/
theorem trailing_buffer_discarded_witness :
    ('\n' ∉ s2l "\x7bpartial") ∧
    handleStreamingResponse (initialState 1) (s2l "hi")
        ([s2l "\x7b\x22type\x22:\x22intent\x22,\x22data\x22:\x22x\x22\x7d\n"] ++ [s2l "\x7bpartial"]) false =
      handleStreamingResponse (initialState 1) (s2l "hi")
        [s2l "\x7b\x22type\x22:\x22intent\x22,\x22data\x22:\x22x\x22\x7d\n"] false :=
  ⟨by decide,
   trailing_buffer_discarded (initialState 1) (s2l "hi")
     [s2l "\x7b\x22type\x22:\x22intent\x22,\x22data\x22:\x22x\x22\x7d\n"] (s2l "\x7bpartial")
     (by decide)⟩

/-- C6: a line that fails JSON parsing is dropped: folding the streaming loop
over any line sequence containing it yields exactly the state obtained without
it, so the flags are untouched and every later well-formed record is classified
and folded exactly as if the malformed line had not occurred. -/
theorem malformed_line_skipped (pre post : List (List Char)) (m : List Char)
    (s : AppState × Option Json) (h : parseJson m = none) :
    List.foldl lineStep s (pre ++ m :: post) = List.foldl lineStep s (pre ++ post) := by
  have hm : classifyLine m = LineAct.skip := by
    unfold classifyLine
    split
    · rfl
    · rw [h]
  rw [List.foldl_append, List.foldl_append, List.foldl_cons,
    show lineStep (List.foldl lineStep s pre) m = List.foldl lineStep s pre from by
      simp [lineStep, hm]]

/-- C6 witness. -/
theorem malformed_line_skipped_witness :
    parseJson (s2l "\x7boops") = none ∧
    List.foldl lineStep (initialState 1, some (Json.str []))
        ([s2l "\x7b\x22type\x22:\x22intent\x22,\x22data\x22:\x22a\x22\x7d"] ++
          s2l "\x7boops" :: [s2l "\x7b\x22type\x22:\x22category\x22,\x22data\x22:\x22b\x22\x7d"]) =
      List.foldl lineStep (initialState 1, some (Json.str []))
        ([s2l "\x7b\x22type\x22:\x22intent\x22,\x22data\x22:\x22a\x22\x7d"] ++
          [s2l "\x7b\x22type\x22:\x22category\x22,\x22data\x22:\x22b\x22\x7d"]) :=
  ⟨rfl,
   malformed_line_skipped [s2l "\x7b\x22type\x22:\x22intent\x22,\x22data\x22:\x22a\x22\x7d"]
     [s2l "\x7b\x22type\x22:\x22category\x22,\x22data\x22:\x22b\x22\x7d"] (s2l "\x7boops")
     (initialState 1, some (Json.str [])) rfl⟩

/-- C9: in the synchronous path the `||` fallbacks apply to falsy values, not
only absent fields: a present-but-empty `response` yields the fallback text and
a present-but-falsy `type` yields kind `text`. -/
theorem sync_falsy_defaults (st : AppState) (text : List Char) :
    (resolveOutcome st text (Outcome.syncJson
        (Json.obj [(s2l "response", Json.str []), (s2l "type", Json.str [])]))).messages =
      st.messages ++
        [{ content := some (Json.str fallbackText), sender := Sender.agent,
           type := some (Json.str (s2l "text")), buttons := some (Json.arr []),
           options := some (Json.arr []), products := some [],
           total_products := some (Json.num ['0']) }] ∧
    (resolveOutcome st text (Outcome.syncJson
        (Json.obj [(s2l "response", Json.str (s2l "hello")), (s2l "type", Json.num ['0'])]))).messages =
      st.messages ++
        [{ content := some (Json.str (s2l "hello")), sender := Sender.agent,
           type := some (Json.str (s2l "text")), buttons := some (Json.arr []),
           options := some (Json.arr []), products := some [],
           total_products := some (Json.num ['0']) }] :=
  ⟨rfl, rfl⟩

theorem endOfStream_proj (p : AppState × Option Json) :
    (endOfStream p).isInputDisabled = p.1.isInputDisabled ∧
    (endOfStream p).isLoading = false ∧
    (endOfStream p).isStreaming = false ∧
    (endOfStream p).toasts = p.1.toasts ∧
    (endOfStream p).streamingData = p.1.streamingData := by
  by_cases h : jsTruthyO p.2 = true
  · simp [endOfStream, h]
  · have h2 : jsTruthyO p.2 = false := by simpa using h
    simp [endOfStream, h2]

/-- C8: a stream record tagged `final_response` is completely inert: inserting
such a line anywhere in the framed line sequence leaves the loop state
unchanged (so it is suppressed from the stream-event log exactly like
`follow_up` and its payload is not captured as the pending final text), and a
stream whose only record is a `final_response` line ends with no agent message
appended. -/
theorem final_response_suppressed :
    (∀ (pre post : List (List Char)) (l : List Char) (s : AppState × Option Json),
      classifyLine l = LineAct.suppress →
      List.foldl lineStep s (pre ++ l :: post) = List.foldl lineStep s (pre ++ post)) ∧
    (∀ (st : AppState) (text l : List Char),
      classifyLine l = LineAct.suppress → '\n' ∉ l →
      (handleStreamingResponse st text [l ++ ['\n']] false).messages = st.messages) := by
  constructor
  · intro pre post l s h
    rw [List.foldl_append, List.foldl_append, List.foldl_cons,
      show lineStep (List.foldl lineStep s pre) l = List.foldl lineStep s pre from by
        simp [lineStep, h]]
  · intro st text l h hn
    unfold handleStreamingResponse
    rw [streamLoop_eq]
    have hl : linesOf [l ++ ['\n']] = [l] := by
      unfold linesOf
      rw [show concatAll [l ++ ['\n']] = l ++ ['\n'] from by simp [concatAll],
        splitNl_append, splitNl_no_nl hn]
      simp [lastD, glueHead, splitNl]
    rw [hl, List.foldl_cons, List.foldl_nil,
      show lineStep (streamStart st text, some (Json.str [])) l =
        (streamStart st text, some (Json.str [])) from by simp [lineStep, h]]
    simp [endOfStream, jsTruthyO, jsTruthy, streamStart]

/-- C8 witness. -/
theorem final_response_suppressed_witness :
    classifyLine (s2l "\x7b\x22type\x22:\x22final_response\x22,\x22data\x22:\x22bye\x22\x7d") =
      LineAct.suppress ∧
    ('\n' ∉ s2l "\x7b\x22type\x22:\x22final_response\x22,\x22data\x22:\x22bye\x22\x7d") ∧
    List.foldl lineStep (initialState 1, some (Json.str []))
        ([] ++ s2l "\x7b\x22type\x22:\x22final_response\x22,\x22data\x22:\x22bye\x22\x7d" ::
          [s2l "\x7b\x22type\x22:\x22intent\x22,\x22data\x22:\x22a\x22\x7d"]) =
      List.foldl lineStep (initialState 1, some (Json.str []))
        ([] ++ [s2l "\x7b\x22type\x22:\x22intent\x22,\x22data\x22:\x22a\x22\x7d"]) ∧
    (handleStreamingResponse (initialState 1) (s2l "hi")
        [s2l "\x7b\x22type\x22:\x22final_response\x22,\x22data\x22:\x22bye\x22\x7d" ++ ['\n']]
        false).messages = (initialState 1).messages :=
  ⟨rfl, by decide,
   final_response_suppressed.1 []
     [s2l "\x7b\x22type\x22:\x22intent\x22,\x22data\x22:\x22a\x22\x7d"]
     (s2l "\x7b\x22type\x22:\x22final_response\x22,\x22data\x22:\x22bye\x22\x7d")
     (initialState 1, some (Json.str [])) rfl,
   final_response_suppressed.2 (initialState 1) (s2l "hi")
     (s2l "\x7b\x22type\x22:\x22final_response\x22,\x22data\x22:\x22bye\x22\x7d") rfl (by decide)⟩

theorem hsr_ok_eq (st : AppState) (text : List Char) (chunks : List (List Char)) :
    handleStreamingResponse st text chunks false =
      endOfStream (List.foldl lineStep (streamStart st text, some (Json.str []))
        (linesOf chunks)) := by
  unfold handleStreamingResponse
  rw [streamLoop_eq]
  rfl

theorem endOfStream_messages_truthy (p : AppState × Option Json)
    (h : jsTruthyO p.2 = true) :
    (endOfStream p).messages = p.1.messages ++ [mkFinalMsg p.2] := by
  simp [endOfStream, h]

theorem endOfStream_messages_falsy (p : AppState × Option Json)
    (h : jsTruthyO p.2 = false) :
    (endOfStream p).messages = p.1.messages := by
  simp [endOfStream, h]

/-- C10: when the value captured from the last `follow_up` record of a stream
is the empty string, no agent message is appended at end of stream; and in
general the end-of-stream append happens only when the captured final value is
truthy — a falsy capture leaves the message log untouched. -/
theorem empty_follow_up_no_message :
    (∀ (st : AppState) (text : List Char) (chunks : List (List Char)),
      lastCapture (linesOf chunks) = some (some (Json.str [])) →
      (handleStreamingResponse st text chunks false).messages = st.messages) ∧
    (∀ p : AppState × Option Json, jsTruthyO p.2 = false →
      (endOfStream p).messages = p.1.messages) := by
  constructor
  · intro st text chunks h
    rw [hsr_ok_eq]
    have h2 := lineFold_snd (linesOf chunks) (streamStart st text) (some (Json.str []))
    rw [h] at h2
    rw [endOfStream_messages_falsy _ (by rw [h2]; rfl)]
    obtain ⟨evs, he, _⟩ :=
      lineFold_app (linesOf chunks) (streamStart st text, some (Json.str []))
    rw [he]
    rfl
  · intro p h
    exact endOfStream_messages_falsy p h

/-- C10 witness. -/
theorem empty_follow_up_no_message_witness :
    lastCapture (linesOf
        [s2l "\x7b\x22type\x22:\x22follow_up\x22,\x22data\x22:\x22a\x22\x7d\n\x7b\x22type\x22:\x22follow_up\x22,\x22data\x22:\x22\x22\x7d\n"]) =
      some (some (Json.str [])) ∧
    (handleStreamingResponse (initialState 1) (s2l "hi")
        [s2l "\x7b\x22type\x22:\x22follow_up\x22,\x22data\x22:\x22a\x22\x7d\n\x7b\x22type\x22:\x22follow_up\x22,\x22data\x22:\x22\x22\x7d\n"]
        false).messages = (initialState 1).messages ∧
    jsTruthyO (some (Json.str [])) = false ∧
    (endOfStream (initialState 1, some (Json.str []))).messages =
      (initialState 1).messages :=
  ⟨rfl,
   empty_follow_up_no_message.1 (initialState 1) (s2l "hi")
     [s2l "\x7b\x22type\x22:\x22follow_up\x22,\x22data\x22:\x22a\x22\x7d\n\x7b\x22type\x22:\x22follow_up\x22,\x22data\x22:\x22\x22\x7d\n"]
     rfl,
   rfl,
   empty_follow_up_no_message.2 (initialState 1, some (Json.str [])) rfl⟩

/-- C2 (counterexample): a stream containing a `follow_up` record with truthy
payload `"a"`, followed by a later `follow_up` whose payload is the empty
string, ends with NO agent message appended at all — so it is not the case
that every stream containing some `follow_up` with a payload appends exactly
one agent message carrying that payload. -/
theorem follow_up_overwritten_counterexample :
    classifyLine (s2l "\x7b\x22type\x22:\x22follow_up\x22,\x22data\x22:\x22a\x22\x7d") =
      LineAct.capture (some (Json.str ['a'])) ∧
    (handleSubmit (setInputMessage (initialState 1) (s2l "hi"))
        (Outcome.streamOk
          [s2l "\x7b\x22type\x22:\x22follow_up\x22,\x22data\x22:\x22a\x22\x7d\n\x7b\x22type\x22:\x22follow_up\x22,\x22data\x22:\x22\x22\x7d\n"])).messages =
      [mkUserMsg (s2l "hi")] :=
  ⟨rfl, rfl⟩

/-- C2 (amended): when the payload captured from the LAST `follow_up` record of
a stream is truthy, exactly one agent message of kind `text` carrying that
payload is appended when the stream ends; and every event appended to the
stream-event log during the stream has a tag other than `follow_up` (the query
pseudo-event aside, no `follow_up` entry ever reaches the log). -/
theorem last_follow_up_appended (st : AppState) (text : List Char)
    (chunks : List (List Char)) (dq : Option Json)
    (h : lastCapture (linesOf chunks) = some dq) (ht : jsTruthyO dq = true) :
    (handleStreamingResponse st text chunks false).messages =
      st.messages ++ [mkFinalMsg dq] ∧
    ∃ evs : List StreamingData,
      (handleStreamingResponse st text chunks false).streamingData =
        st.streamingData ++ [queryEvent text] ++ evs ∧
      ∀ e ∈ evs, e.type ≠ some (Json.str (s2l "follow_up")) := by
  rw [hsr_ok_eq]
  have h2 := lineFold_snd (linesOf chunks) (streamStart st text) (some (Json.str []))
  rw [h] at h2
  obtain ⟨evs, he, hf⟩ :=
    lineFold_app (linesOf chunks) (streamStart st text, some (Json.str []))
  constructor
  · rw [endOfStream_messages_truthy _ (by rw [h2]; exact ht), he, h2]
    rfl
  · refine ⟨evs, ?_, hf⟩
    rw [(endOfStream_proj _).2.2.2.2, he]
    rfl

/-- C2 witness. -/
theorem last_follow_up_appended_witness :
    lastCapture (linesOf
        [s2l "\x7b\x22type\x22:\x22intent\x22,\x22data\x22:\x22x\x22\x7d\n\x7b\x22type\x22:\x22follow_up\x22,\x22data\x22:\x22ok\x22\x7d\n"]) =
      some (some (Json.str (s2l "ok"))) ∧
    jsTruthyO (some (Json.str (s2l "ok"))) = true ∧
    ((handleStreamingResponse (initialState 1) (s2l "hi")
        [s2l "\x7b\x22type\x22:\x22intent\x22,\x22data\x22:\x22x\x22\x7d\n\x7b\x22type\x22:\x22follow_up\x22,\x22data\x22:\x22ok\x22\x7d\n"]
        false).messages =
      (initialState 1).messages ++ [mkFinalMsg (some (Json.str (s2l "ok")))] ∧
    ∃ evs : List StreamingData,
      (handleStreamingResponse (initialState 1) (s2l "hi")
          [s2l "\x7b\x22type\x22:\x22intent\x22,\x22data\x22:\x22x\x22\x7d\n\x7b\x22type\x22:\x22follow_up\x22,\x22data\x22:\x22ok\x22\x7d\n"]
          false).streamingData =
        (initialState 1).streamingData ++ [queryEvent (s2l "hi")] ++ evs ∧
      ∀ e ∈ evs, e.type ≠ some (Json.str (s2l "follow_up"))) :=
  ⟨rfl, rfl,
   last_follow_up_appended (initialState 1) (s2l "hi")
     [s2l "\x7b\x22type\x22:\x22intent\x22,\x22data\x22:\x22x\x22\x7d\n\x7b\x22type\x22:\x22follow_up\x22,\x22data\x22:\x22ok\x22\x7d\n"]
     (some (Json.str (s2l "ok"))) rfl rfl⟩

theorem hsr_abort_eq (st : AppState) (text : List Char) (chunks : List (List Char)) :
    handleStreamingResponse st text chunks true =
      { (List.foldl lineStep (streamStart st text, some (Json.str []))
          (linesOf chunks)).1 with
        toasts := (List.foldl lineStep (streamStart st text, some (Json.str []))
          (linesOf chunks)).1.toasts ++ [streamErrToast],
        isLoading := false, isStreaming := false } := by
  unfold handleStreamingResponse
  rw [streamLoop_eq]
  rfl

/-- C5 (counterexample): a reachable trace — submit answered by a synchronous
interactive reply (locking input), then a second submit answered by a stream
whose last record is a `follow_up` — ends with an agent message of kind `text`
appended at end of stream while the input-lock flag is still true: the lock is
not recomputed on stream-end messages. -/
theorem stream_text_keeps_lock_counterexample :
    (handleSubmit
        (setInputMessage
          (handleSubmit (setInputMessage (initialState 1) (s2l "earrings"))
            (Outcome.syncJson (Json.obj
              [(s2l "response", Json.str (s2l "Pick one")),
               (s2l "type", Json.str (s2l "interactive")),
               (s2l "buttons", Json.arr [Json.str (s2l "Gold")])])))
          (s2l "hi"))
        (Outcome.streamOk
          [s2l "\x7b\x22type\x22:\x22follow_up\x22,\x22data\x22:\x22Hello\x22\x7d\n"])).isInputDisabled
      = true ∧
    (handleSubmit
        (setInputMessage
          (handleSubmit (setInputMessage (initialState 1) (s2l "earrings"))
            (Outcome.syncJson (Json.obj
              [(s2l "response", Json.str (s2l "Pick one")),
               (s2l "type", Json.str (s2l "interactive")),
               (s2l "buttons", Json.arr [Json.str (s2l "Gold")])])))
          (s2l "hi"))
        (Outcome.streamOk
          [s2l "\x7b\x22type\x22:\x22follow_up\x22,\x22data\x22:\x22Hello\x22\x7d\n"])).messages.getLast?
      = some (mkFinalMsg (some (Json.str (s2l "Hello")))) :=
  ⟨rfl, rfl⟩

/-- C5 (amended): after a synchronous agent reply the input lock is recomputed
as `kind == interactive`; a button click clears the lock immediately at
dispatch; but a message appended at the end of a stream does NOT recompute the
lock — the streaming path leaves the input-lock flag exactly as it was. -/
theorem input_lock_behavior :
    (∀ (st : AppState) (text : List Char) (dta : Json) (m : Message),
      mkAgentMessage dta = Except.ok m →
      (resolveOutcome st text (Outcome.syncJson dta)).isInputDisabled = isInteractive m) ∧
    (∀ (st : AppState) (label : List Char),
      (buttonDispatch st label).isInputDisabled = false) ∧
    (∀ (st : AppState) (text : List Char) (chunks : List (List Char)),
      (handleStreamingResponse st text chunks false).isInputDisabled =
        st.isInputDisabled) := by
  refine ⟨?_, ?_, ?_⟩
  · intro st text dta m h
    simp [resolveOutcome, h]
  · intro st label
    rfl
  · intro st text chunks
    rw [hsr_ok_eq, (endOfStream_proj _).1]
    obtain ⟨evs, he, _⟩ :=
      lineFold_app (linesOf chunks) (streamStart st text, some (Json.str []))
    rw [he]
    rfl

/-- C5 witness. -/
theorem input_lock_behavior_witness :
    mkAgentMessage (Json.obj [(s2l "response", Json.str (s2l "Pick one")),
        (s2l "type", Json.str (s2l "interactive"))]) =
      Except.ok { content := some (Json.str (s2l "Pick one")), sender := Sender.agent,
                  type := some (Json.str (s2l "interactive")),
                  buttons := some (Json.arr []), options := some (Json.arr []),
                  products := some [], total_products := some (Json.num ['0']) } ∧
    (resolveOutcome (initialState 1) (s2l "x")
        (Outcome.syncJson (Json.obj [(s2l "response", Json.str (s2l "Pick one")),
          (s2l "type", Json.str (s2l "interactive"))]))).isInputDisabled =
      isInteractive { content := some (Json.str (s2l "Pick one")), sender := Sender.agent,
                      type := some (Json.str (s2l "interactive")),
                      buttons := some (Json.arr []), options := some (Json.arr []),
                      products := some [], total_products := some (Json.num ['0']) } :=
  ⟨rfl,
   input_lock_behavior.1 (initialState 1) (s2l "x")
     (Json.obj [(s2l "response", Json.str (s2l "Pick one")),
       (s2l "type", Json.str (s2l "interactive"))])
     { content := some (Json.str (s2l "Pick one")), sender := Sender.agent,
       type := some (Json.str (s2l "interactive")),
       buttons := some (Json.arr []), options := some (Json.arr []),
       products := some [], total_products := some (Json.num ['0']) } rfl⟩

/-- C7 (counterexample): a network failure that aborts an already-started
stream surfaces TWO error notifications (one from the stream handler's catch,
one from the dispatcher's catch), not exactly one. -/
theorem stream_abort_two_toasts_counterexample :
    (handleSubmit (setInputMessage (initialState 1) (s2l "hi"))
        (Outcome.streamAborted [])).toasts = [streamErrToast, agentErrToast] ∧
    (handleSubmit (setInputMessage (initialState 1) (s2l "hi"))
        (Outcome.streamAborted [])).toasts.length = 2 :=
  ⟨rfl, rfl⟩

/-- C7 (amended): a failed request is never retried, the loading and streaming
flags are reset, and the message log keeps the already-appended user message
(nothing is retracted, no agent message is added). A failure before any stream
output (non-ok status, thrown fetch, malformed sync body) surfaces exactly one
error notification — for submit and for button clicks alike — while an abort
of an already-started stream surfaces two. -/
theorem request_failure_behavior :
    (∀ st : AppState, (jsTrim st.inputMessage).isEmpty = false →
      handleSubmit st Outcome.httpError =
        { st with messages := st.messages ++ [mkUserMsg st.inputMessage],
                  inputMessage := [], isLoading := false, isStreaming := false,
                  toasts := st.toasts ++ [agentErrToast] }) ∧
    (∀ (st : AppState) (label : List Char),
      handleButtonClick st label Outcome.httpError =
        { st with messages := st.messages ++ [mkUserMsg label],
                  isInputDisabled := false, isLoading := false, isStreaming := false,
                  toasts := st.toasts ++ [agentErrToast] }) ∧
    (∀ (st : AppState) (chunks : List (List Char)),
      (jsTrim st.inputMessage).isEmpty = false →
      (handleSubmit st (Outcome.streamAborted chunks)).messages =
        st.messages ++ [mkUserMsg st.inputMessage] ∧
      (handleSubmit st (Outcome.streamAborted chunks)).isLoading = false ∧
      (handleSubmit st (Outcome.streamAborted chunks)).isStreaming = false ∧
      (handleSubmit st (Outcome.streamAborted chunks)).toasts =
        st.toasts ++ [streamErrToast, agentErrToast]) := by
  refine ⟨?_, ?_, ?_⟩
  · intro st h
    unfold handleSubmit
    rw [if_neg (by simp [h])]
    rfl
  · intro st label
    rfl
  · intro st chunks h
    have key : handleSubmit st (Outcome.streamAborted chunks) =
        resolveOutcome (submitDispatch st) st.inputMessage
          (Outcome.streamAborted chunks) := by
      unfold handleSubmit
      rw [if_neg (by simp [h])]
    obtain ⟨evs, he, _⟩ := lineFold_app (linesOf chunks)
      (streamStart (submitDispatch st) st.inputMessage, some (Json.str []))
    have ha := hsr_abort_eq (submitDispatch st) st.inputMessage chunks
    refine ⟨?_, ?_, ?_, ?_⟩
    · rw [key, show (resolveOutcome (submitDispatch st) st.inputMessage
          (Outcome.streamAborted chunks)).messages =
          (handleStreamingResponse (submitDispatch st) st.inputMessage chunks true).messages
          from rfl, ha]
      rw [show ({ (List.foldl lineStep
          (streamStart (submitDispatch st) st.inputMessage, some (Json.str []))
          (linesOf chunks)).1 with
          toasts := (List.foldl lineStep
            (streamStart (submitDispatch st) st.inputMessage, some (Json.str []))
            (linesOf chunks)).1.toasts ++ [streamErrToast],
          isLoading := false, isStreaming := false } : AppState).messages =
          (List.foldl lineStep
            (streamStart (submitDispatch st) st.inputMessage, some (Json.str []))
            (linesOf chunks)).1.messages from rfl, he]
      rfl
    · rw [key]
      rfl
    · rw [key]
      rfl
    · rw [key, show (resolveOutcome (submitDispatch st) st.inputMessage
          (Outcome.streamAborted chunks)).toasts =
          (handleStreamingResponse (submitDispatch st) st.inputMessage chunks true).toasts
            ++ [agentErrToast] from rfl, ha]
      rw [show ({ (List.foldl lineStep
          (streamStart (submitDispatch st) st.inputMessage, some (Json.str []))
          (linesOf chunks)).1 with
          toasts := (List.foldl lineStep
            (streamStart (submitDispatch st) st.inputMessage, some (Json.str []))
            (linesOf chunks)).1.toasts ++ [streamErrToast],
          isLoading := false, isStreaming := false } : AppState).toasts =
          (List.foldl lineStep
            (streamStart (submitDispatch st) st.inputMessage, some (Json.str []))
            (linesOf chunks)).1.toasts ++ [streamErrToast] from rfl, he]
      simp [streamStart, submitDispatch]

/-- C7 witness. -/
theorem request_failure_behavior_witness :
    (jsTrim (setInputMessage (initialState 1) (s2l "hi")).inputMessage).isEmpty = false ∧
    handleSubmit (setInputMessage (initialState 1) (s2l "hi")) Outcome.httpError =
      { setInputMessage (initialState 1) (s2l "hi") with
        messages := (setInputMessage (initialState 1) (s2l "hi")).messages ++
          [mkUserMsg (setInputMessage (initialState 1) (s2l "hi")).inputMessage],
        inputMessage := [], isLoading := false, isStreaming := false,
        toasts := (setInputMessage (initialState 1) (s2l "hi")).toasts ++ [agentErrToast] } ∧
    ((handleSubmit (setInputMessage (initialState 1) (s2l "hi"))
        (Outcome.streamAborted [])).messages =
      (setInputMessage (initialState 1) (s2l "hi")).messages ++
        [mkUserMsg (setInputMessage (initialState 1) (s2l "hi")).inputMessage] ∧
    (handleSubmit (setInputMessage (initialState 1) (s2l "hi"))
        (Outcome.streamAborted [])).isLoading = false ∧
    (handleSubmit (setInputMessage (initialState 1) (s2l "hi"))
        (Outcome.streamAborted [])).isStreaming = false ∧
    (handleSubmit (setInputMessage (initialState 1) (s2l "hi"))
        (Outcome.streamAborted [])).toasts =
      (setInputMessage (initialState 1) (s2l "hi")).toasts ++
        [streamErrToast, agentErrToast]) :=
  ⟨rfl,
   request_failure_behavior.1 (setInputMessage (initialState 1) (s2l "hi")) rfl,
   request_failure_behavior.2.2 (setInputMessage (initialState 1) (s2l "hi")) [] rfl⟩

/-! ## Parser sanity checks -/

example : parseJson (s2l "\x7b\x22type\x22:\x22intent\x22,\x22data\x22:\x22x\x22\x7d") =
    some (Json.obj [(s2l "type", Json.str (s2l "intent")), (s2l "data", Json.str (s2l "x"))]) := by
  rfl

example : parseJson (s2l "\x7boops") = none := by rfl

example : parseJson (s2l " [1, true, \x22a\x22] ") =
    some (Json.arr [Json.num ['1'], Json.bool true, Json.str ['a']]) := by rfl
